import Mathlib

/-!
Verification of the health-aware eviction rate limiting core of the
karmada repository: the dynamic rate limiters in
`pkg/controllers/cluster/dynamic_rate_limiter.go` and
`pkg/controllers/gracefuleviction/dynamic_rate_limiter.go`, and the
eviction worker in `pkg/controllers/cluster/eviction_worker.go`.

Go `float32` arithmetic is modelled over `ℚ`: a value is rounded to a
24-bit significand with round-to-nearest, ties-to-even, and the subnormal
cutoff at exponent -149.  Overflow to infinity and NaN are outside the
modelled range (the rates and durations handled by this code are small).
Go's `time.Duration(...)` conversion from `float32` truncates toward zero
and is modelled by `truncQ`.
-/

attribute [local semireducible] Rat.mul Rat.inv Rat.add Rat.sub

/-- Fuel-bounded binary logarithm on `ℕ`: `log2fuel f n` equals `⌊log₂ n⌋`
whenever `n ≤ f` and `1 ≤ n`.  Structural recursion on the fuel keeps it
kernel-reducible. -/
def log2fuel : ℕ → ℕ → ℕ
  | 0, _ => 0
  | f + 1, n => if n ≤ 1 then 0 else log2fuel f (n / 2) + 1

/-- Binary logarithm on `ℕ` (floor), with self-fuel. -/
def nlog2 (n : ℕ) : ℕ := log2fuel n n

/-- Power of two in `ℚ` with integer exponent, written without `zpow` so
that concrete values reduce in the kernel. -/
def pow2 (e : ℤ) : ℚ :=
  if 0 ≤ e then ((2 ^ e.toNat : ℕ) : ℚ) else 1 / ((2 ^ (-e).toNat : ℕ) : ℚ)

/-- Floor of a rational as an integer, via Euclidean division of the
numerator by the denominator. -/
def floorQ (q : ℚ) : ℤ := q.num / (q.den : ℤ)

/-- Round a rational to the nearest integer, ties to even. -/
def rne (q : ℚ) : ℤ :=
  let n := floorQ q
  let r := q - (n : ℚ)
  if r < 1 / 2 then n
  else if 1 / 2 < r then n + 1
  else if n % 2 = 0 then n else n + 1

/-- Exponent of a positive rational: `qlog2 q = ⌊log₂ q⌋` for `q > 0`. -/
def qlog2 (q : ℚ) : ℤ :=
  if q < pow2 ((nlog2 q.num.natAbs : ℤ) - (nlog2 q.den : ℤ))
  then (nlog2 q.num.natAbs : ℤ) - (nlog2 q.den : ℤ) - 1
  else (nlog2 q.num.natAbs : ℤ) - (nlog2 q.den : ℤ)

/-- Round a positive rational to the float32 grid: unit in the last place
is `2 ^ (⌊log₂ q⌋ - 23)`, floored at the subnormal cutoff `2 ^ (-149)`. -/
def f32RoundPos (q : ℚ) : ℚ :=
  let u : ℤ := max (qlog2 q - 23) (-149)
  (rne (q / pow2 u) : ℚ) * pow2 u

/-- Round a rational to the nearest float32 value (ties to even). -/
def f32Round (q : ℚ) : ℚ :=
  if q = 0 then 0
  else if q < 0 then -f32RoundPos (-q)
  else f32RoundPos q

/-- Go float32 division: exact rational quotient, then rounding. -/
def f32Div (x y : ℚ) : ℚ := f32Round (x / y)

/-- Go float32 multiplication: exact rational product, then rounding. -/
def f32Mul (x y : ℚ) : ℚ := f32Round (x * y)

/-- Go conversion `float32(n)` of a non-negative integer count. -/
def f32OfNat (n : ℕ) : ℚ := f32Round (n : ℚ)

/-- Go conversion from a float to an integer type truncates toward zero. -/
def truncQ (q : ℚ) : ℤ := if 0 ≤ q then floorQ q else -floorQ (-q)

/-- A status condition of a member cluster (a `metav1.Condition`): only
the condition type and status strings matter to this core. -/
structure ClusterCondition where
  condType : String
  status : String
deriving DecidableEq

/-- The status of a member cluster: its condition set. -/
structure ClusterStatus where
  conditions : List ClusterCondition
deriving DecidableEq

/-- A record returned by the cluster lister: either a well-formed
`*clusterv1alpha1.Cluster` (the Go type assertion succeeds) carrying its
status, or a malformed record (the assertion fails). -/
inductive ListedObject where
  | cluster (status : ClusterStatus)
  | malformed
deriving DecidableEq

/-- Modelled from the spec: `util.IsClusterReady` (the helper lives
outside the embedded sources).  Ready is true iff the condition whose
type is "Ready" has status "True"; Unknown/False/Absent mean not ready. -/
def IsClusterReady (s : ClusterStatus) : Bool :=
  match s.conditions.find? (fun c => c.condType == "Ready") with
  | some c => c.status == "True"
  | none => false

/-- The counting loop of `getCurrentRate`: a record that fails the type
assertion to `*Cluster` is skipped; a well-formed cluster counts as
unhealthy when `IsClusterReady` is false. -/
def countUnhealthy (objs : List ListedObject) : ℕ :=
  objs.countP (fun o => match o with
    | .cluster s => !IsClusterReady s
    | .malformed => false)

/-- The cluster lister obtained from the informer manager for the cluster
GVR, collapsed to its observable behavior on `labels.Everything()`:
`none` models a nil lister, `Except.error` a failed `List` call, and
`Except.ok` the successfully listed snapshot. -/
abbrev ListerModel : Type := Option (Except String (List ListedObject))

/-- A call to `metrics.RecordClusterHealthMetrics(faultNum, failureRate)`
publishing the `cluster_fault_num` and `cluster_failure_rate` gauges.
The Go conversion of the float32 rate to float64 is exact. -/
structure HealthMetric where
  clusterFaultNum : ℕ
  clusterFailureRate : ℚ
deriving DecidableEq

/-- Options consumed by the cluster package's `NewDynamicRateLimiter`.
Modelled from the spec: the `evictionqueue_config.EvictionQueueOptions`
struct itself is outside the embedded sources; its four fields are those
read by `NewDynamicRateLimiter`, rate and threshold fields being Go
`float32` values modelled as the rationals they denote. -/
structure EvictionQueueOptions where
  ResourceEvictionRate : ℚ
  SecondaryResourceEvictionRate : ℚ
  UnhealthyClusterThreshold : ℚ
  LargeClusterNumThreshold : ℤ
deriving DecidableEq

/-- Options of `pkg/controllers/gracefuleviction/config/gracefuleviction.go`. -/
structure GracefulEvictionOptions where
  ResourceEvictionRate : ℚ
  SecondaryResourceEvictionRate : ℚ
  UnhealthyClusterThreshold : ℚ
  LargeClusterNumThreshold : ℤ
deriving DecidableEq

/-- Default option values, shared by both option surfaces: the flag
defaults in `gracefuleviction/config` are 0.5, 0.1, 0.55 and 10, read as
float32 literals.  The spec gives the same defaults for the eviction
queue options. -/
def defaultGracefulEvictionOptions : GracefulEvictionOptions :=
  { ResourceEvictionRate := f32Round (1 / 2)
    SecondaryResourceEvictionRate := f32Round (1 / 10)
    UnhealthyClusterThreshold := f32Round (11 / 20)
    LargeClusterNumThreshold := 10 }

/-- Modelled from the spec: default `EvictionQueueOptions` (0.5, 0.1,
0.55, 10 per spec section 3), the float literals read as float32. -/
def defaultEvictionQueueOptions : EvictionQueueOptions :=
  { ResourceEvictionRate := f32Round (1 / 2)
    SecondaryResourceEvictionRate := f32Round (1 / 10)
    UnhealthyClusterThreshold := f32Round (11 / 20)
    LargeClusterNumThreshold := 10 }

namespace ClusterPkg

/-- `DynamicRateLimiter` of `pkg/controllers/cluster/dynamic_rate_limiter.go`,
with the informer manager collapsed to the lister it supplies for the
cluster GVR.  The Go type parameter `T` only types the ignored item
arguments of the methods and is a parameter of those functions here. -/
structure DynamicRateLimiter where
  resourceEvictionRate : ℚ
  secondaryResourceEvictionRate : ℚ
  unhealthyClusterThreshold : ℚ
  largeClusterNumThreshold : ℤ
  informerManager : ListerModel

/-- `NewDynamicRateLimiter` copies the options into the limiter. -/
def NewDynamicRateLimiter (informerManager : ListerModel)
    (opts : EvictionQueueOptions) : DynamicRateLimiter :=
  { resourceEvictionRate := opts.ResourceEvictionRate
    secondaryResourceEvictionRate := opts.SecondaryResourceEvictionRate
    unhealthyClusterThreshold := opts.UnhealthyClusterThreshold
    largeClusterNumThreshold := opts.LargeClusterNumThreshold
    informerManager := informerManager }

/-- `getCurrentRate` of the cluster package, paired with the trace of
health-metric publications it makes.  On a nil lister or a failed list it
returns rate 0 (halt for safety); on an empty snapshot the healthy rate;
otherwise it counts not-ready clusters, publishes the health gauges, and
selects the rate by the two strict threshold comparisons, the failure
rate being computed in float32. -/
def getCurrentRateM (d : DynamicRateLimiter) : ℚ × List HealthMetric :=
  match d.informerManager with
  | none => (0, [])
  | some (.error _) => (0, [])
  | some (.ok clusters) =>
    let totalClusters := clusters.length
    if totalClusters = 0 then (d.resourceEvictionRate, [])
    else
      let unhealthyClusters := countUnhealthy clusters
      let failureRate := f32Div (f32OfNat unhealthyClusters) (f32OfNat totalClusters)
      let published := [HealthMetric.mk unhealthyClusters failureRate]
      if ¬ failureRate > d.unhealthyClusterThreshold then
        (d.resourceEvictionRate, published)
      else if (totalClusters : ℤ) > d.largeClusterNumThreshold then
        (d.secondaryResourceEvictionRate, published)
      else (0, published)

/-- The rate component of `getCurrentRateM`. -/
def getCurrentRate (d : DynamicRateLimiter) : ℚ := (getCurrentRateM d).1

/-- `maxEvictionDelay = 1000 * time.Second`, in nanoseconds. -/
def maxEvictionDelay : ℤ := 1000 * 10 ^ 9

/-- `When`: the delay in nanoseconds before releasing an item.  The Go
method ignores its item argument; `1 / currentRate * float32(time.Second)`
is float32 arithmetic truncated toward zero by the `time.Duration`
conversion. -/
def When {α : Type} (d : DynamicRateLimiter) (_item : α) : ℤ :=
  let currentRate := getCurrentRate d
  if currentRate = 0 then maxEvictionDelay
  else truncQ (f32Mul (f32Div 1 currentRate) (f32Round (10 ^ 9)))

/-- `When` together with the health-metric trace of its single
`getCurrentRate` call. -/
def WhenM {α : Type} (d : DynamicRateLimiter) (item : α) : ℤ × List HealthMetric :=
  (When d item, (getCurrentRateM d).2)

/-- `Forget` has an empty body: the limiter value is unchanged. -/
def Forget {α : Type} (d : DynamicRateLimiter) (_item : α) : DynamicRateLimiter := d

/-- `NumRequeues` always returns 0. -/
def NumRequeues {α : Type} (_d : DynamicRateLimiter) (_item : α) : ℤ := 0

end ClusterPkg

namespace GracefulEviction

/-- `DynamicRateLimiter` of
`pkg/controllers/gracefuleviction/dynamic_rate_limiter.go`. -/
structure DynamicRateLimiter where
  resourceEvictionRate : ℚ
  secondaryResourceEvictionRate : ℚ
  unhealthyClusterThreshold : ℚ
  largeClusterNumThreshold : ℤ
  informerManager : ListerModel

/-- `NewDynamicRateLimiter` copies the options into the limiter. -/
def NewDynamicRateLimiter (informerManager : ListerModel)
    (opts : GracefulEvictionOptions) : DynamicRateLimiter :=
  { resourceEvictionRate := opts.ResourceEvictionRate
    secondaryResourceEvictionRate := opts.SecondaryResourceEvictionRate
    unhealthyClusterThreshold := opts.UnhealthyClusterThreshold
    largeClusterNumThreshold := opts.LargeClusterNumThreshold
    informerManager := informerManager }

/-- `getCurrentRate` of the graceful-eviction package.  Unlike the
cluster package it falls back to the secondary rate on a nil lister or a
failed list, and it makes no metrics calls; the success path is the same
cascade. -/
def getCurrentRate (d : DynamicRateLimiter) : ℚ :=
  match d.informerManager with
  | none => d.secondaryResourceEvictionRate
  | some (.error _) => d.secondaryResourceEvictionRate
  | some (.ok clusters) =>
    let totalClusters := clusters.length
    if totalClusters = 0 then d.resourceEvictionRate
    else
      let unhealthyClusters := countUnhealthy clusters
      let failureRate := f32Div (f32OfNat unhealthyClusters) (f32OfNat totalClusters)
      if ¬ failureRate > d.unhealthyClusterThreshold then
        d.resourceEvictionRate
      else if (totalClusters : ℤ) > d.largeClusterNumThreshold then
        d.secondaryResourceEvictionRate
      else 0

/-- `When`: identical arithmetic to the cluster package's `When`; the
paused delay is the literal `1000 * time.Second`. -/
def When {α : Type} (d : DynamicRateLimiter) (_item : α) : ℤ :=
  let currentRate := getCurrentRate d
  if currentRate = 0 then 1000 * 10 ^ 9
  else truncQ (f32Mul (f32Div 1 currentRate) (f32Round (10 ^ 9)))

/-- `When` with its trace of health-metric publications, which is empty:
the graceful-eviction `getCurrentRate` contains no metrics call. -/
def WhenM {α : Type} (d : DynamicRateLimiter) (item : α) : ℤ × List HealthMetric :=
  (When d item, [])

/-- `Forget` has an empty body: the limiter value is unchanged. -/
def Forget {α : Type} (d : DynamicRateLimiter) (_item : α) : DynamicRateLimiter := d

/-- `NumRequeues` always returns 0. -/
def NumRequeues {α : Type} (_d : DynamicRateLimiter) (_item : α) : ℤ := 0

end GracefulEviction

namespace EvictionWorkerPkg

/-- One observable effect of the eviction worker of
`pkg/controllers/cluster/eviction_worker.go`: a call on the wrapped
workqueue or on the metrics facade.  The queue and the metrics backend
are external collaborators, so the worker's behavior is modelled as the
ordered trace of calls it makes. -/
inductive WorkerEvent (α : Type) where
  | queueAdd (item : α)
  | queueAddAfter (item : α) (durationNs : ℤ)
  | queueAddRateLimited (item : α)
  | queueDone (item : α)
  | queueForget (item : α)
  | recordEvictionQueueMetrics (queueName : String) (depth : ℕ)
  | recordEvictionKindMetrics (clusterName resourceKind : String) (isAdd : Bool)
  | recordEvictionProcessingMetrics (queueName : String) (isError : Bool)
deriving DecidableEq

/-- The `evictionWorker` struct: the queue itself is an external
collaborator, so only the name and the three caller-supplied functions
are carried.  `keyFunc` returns a key (possibly nil, modelled by
`Option`) or an error; `reconcileFunc` returns an error or nil;
`resourceKindFunc` may be absent (nil). -/
structure evictionWorker (α Obj : Type) where
  name : String
  keyFunc : Obj → Except String (Option α)
  reconcileFunc : α → Option String
  resourceKindFunc : Option (α → String × String)

/-- `Add`: a nil item (modelled `none`) is ignored with no queue call and
no metric update; otherwise the item is added, the queue-depth gauge is
recorded (`queueLen` stands for `queue.Len()` after the add), and, when a
`resourceKindFunc` is configured, the per-kind gauge is incremented. -/
def Add {α Obj : Type} (w : evictionWorker α Obj) (item : Option α)
    (queueLen : ℕ) : List (WorkerEvent α) :=
  match item with
  | none => []
  | some k =>
    [WorkerEvent.queueAdd k,
     WorkerEvent.recordEvictionQueueMetrics w.name queueLen] ++
    (match w.resourceKindFunc with
     | none => []
     | some f => [WorkerEvent.recordEvictionKindMetrics (f k).1 (f k).2 true])

/-- `AddAfter`: as `Add`, but through `queue.AddAfter` with a delay. -/
def AddAfter {α Obj : Type} (w : evictionWorker α Obj) (item : Option α)
    (durationNs : ℤ) (queueLen : ℕ) : List (WorkerEvent α) :=
  match item with
  | none => []
  | some k =>
    [WorkerEvent.queueAddAfter k durationNs,
     WorkerEvent.recordEvictionQueueMetrics w.name queueLen] ++
    (match w.resourceKindFunc with
     | none => []
     | some f => [WorkerEvent.recordEvictionKindMetrics (f k).1 (f k).2 true])

/-- `Enqueue`: derive the key; on a key-derivation error or a nil key the
object is dropped with no further calls; otherwise delegate to `Add`. -/
def Enqueue {α Obj : Type} (w : evictionWorker α Obj) (obj : Obj)
    (queueLen : ℕ) : List (WorkerEvent α) :=
  match w.keyFunc obj with
  | .error _ => []
  | .ok none => []
  | .ok (some key) => Add w (some key) queueLen

/-- `processNextWorkItem`: `got` is the result of `queue.Get()` (`none`
models the shutdown signal) and `queueLen` stands for `queue.Len()` after
the get.  Returns the loop-continuation flag and the trace of queue and
metrics calls; `queue.Done` runs deferred, hence last. -/
def processNextWorkItem {α Obj : Type} (w : evictionWorker α Obj)
    (got : Option α) (queueLen : ℕ) : Bool × List (WorkerEvent α) :=
  match got with
  | none => (false, [])
  | some key =>
    let ck := match w.resourceKindFunc with
      | none => ("", "")
      | some f => f key
    let pre := [WorkerEvent.recordEvictionQueueMetrics w.name queueLen]
    match w.reconcileFunc key with
    | some _ =>
      (true, pre ++
        [WorkerEvent.recordEvictionProcessingMetrics w.name true,
         WorkerEvent.queueAddRateLimited key,
         WorkerEvent.queueDone key])
    | none =>
      (true, pre ++
        [WorkerEvent.recordEvictionProcessingMetrics w.name false,
         WorkerEvent.queueForget key,
         WorkerEvent.recordEvictionKindMetrics ck.1 ck.2 false,
         WorkerEvent.queueDone key])

/-- Whether an event is an increment of the outcome counter
`eviction_processing_total`. -/
def isOutcomeEvent {α : Type} : WorkerEvent α → Bool
  | .recordEvictionProcessingMetrics _ _ => true
  | _ => false

/-- Whether an event is a decrement of the per-kind gauge
`evict_kind_total`. -/
def isKindDecrement {α : Type} : WorkerEvent α → Bool
  | .recordEvictionKindMetrics _ _ isAdd => !isAdd
  | _ => false

end EvictionWorkerPkg

/-- A cluster record whose Ready condition has status True. -/
def readyCluster : ListedObject := ListedObject.cluster ⟨[⟨"Ready", "True"⟩]⟩

/-- A cluster record whose Ready condition has status False (NotReady). -/
def notReadyCluster : ListedObject := ListedObject.cluster ⟨[⟨"Ready", "False"⟩]⟩

/-- A concrete worker whose reconcile always fails, used to instantiate
general theorems. -/
def wErr : EvictionWorkerPkg.evictionWorker ℕ ℕ :=
  { name := "cluster-eviction"
    keyFunc := fun o => Except.ok (some o)
    reconcileFunc := fun _ => some "reconcile failed"
    resourceKindFunc := some (fun _ => ("member1", "ResourceBinding")) }

/-- A concrete worker whose reconcile always succeeds. -/
def wOk : EvictionWorkerPkg.evictionWorker ℕ ℕ :=
  { name := "cluster-eviction"
    keyFunc := fun o => Except.ok (some o)
    reconcileFunc := fun _ => none
    resourceKindFunc := some (fun _ => ("member1", "ResourceBinding")) }

/-- A concrete worker whose key derivation fails. -/
def wKeyErr : EvictionWorkerPkg.evictionWorker ℕ ℕ :=
  { name := "cluster-eviction"
    keyFunc := fun _ => Except.error "bad object"
    reconcileFunc := fun _ => none
    resourceKindFunc := none }

/-- A concrete worker whose key derivation returns a nil key. -/
def wKeyNil : EvictionWorkerPkg.evictionWorker ℕ ℕ :=
  { name := "cluster-eviction"
    keyFunc := fun _ => Except.ok none
    reconcileFunc := fun _ => none
    resourceKindFunc := none }

/-- A concrete cluster-package limiter over a healthy four-cluster
snapshot with default options. -/
def dHealthy : ClusterPkg.DynamicRateLimiter :=
  ClusterPkg.NewDynamicRateLimiter
    (some (Except.ok [readyCluster, readyCluster, readyCluster, readyCluster]))
    defaultEvictionQueueOptions

theorem log2fuel_spec : ∀ (f n : ℕ), 1 ≤ n → n ≤ f →
    2 ^ log2fuel f n ≤ n ∧ n < 2 ^ (log2fuel f n + 1) := by
  intro f
  induction f with
  | zero => intro n h1 h2; omega
  | succ f ih =>
    intro n h1 h2
    by_cases hn : n ≤ 1
    · have hn1 : n = 1 := le_antisymm hn h1
      subst hn1
      simp [log2fuel]
    · have h2n : 2 ≤ n := by omega
      have hd1 : 1 ≤ n / 2 := by omega
      have hdf : n / 2 ≤ f := by
        have := Nat.div_lt_self (show 0 < n by omega) (by norm_num : 1 < 2)
        omega
      obtain ⟨hlo, hhi⟩ := ih (n / 2) hd1 hdf
      have hunf : log2fuel (f + 1) n = log2fuel f (n / 2) + 1 := by
        simp [log2fuel, hn]
      rw [hunf]
      constructor
      · have he : 2 ^ (log2fuel f (n / 2) + 1) = 2 * 2 ^ log2fuel f (n / 2) := by
          ring
        rw [he]
        omega
      · have he : 2 ^ (log2fuel f (n / 2) + 1 + 1) = 2 * 2 ^ (log2fuel f (n / 2) + 1) := by
          ring
        rw [he]
        omega

theorem nlog2_spec (n : ℕ) (h : 1 ≤ n) :
    2 ^ nlog2 n ≤ n ∧ n < 2 ^ (nlog2 n + 1) :=
  log2fuel_spec n n h le_rfl

theorem pow2_eq_zpow (e : ℤ) : pow2 e = (2 : ℚ) ^ e := by
  unfold pow2
  split
  · next h =>
      push_cast
      rw [← zpow_natCast, Int.toNat_of_nonneg h]
  · next h =>
      push_cast
      rw [one_div, ← zpow_natCast, ← zpow_neg]
      congr 1
      omega

theorem pow2_pos (e : ℤ) : 0 < pow2 e := by
  rw [pow2_eq_zpow]
  positivity

theorem qlog2_lt (q : ℚ) (hq : 0 < q) : q < pow2 (qlog2 q + 1) := by
  have ha : 1 ≤ q.num.natAbs := by
    have := Rat.num_pos.mpr hq
    omega
  have hb : 1 ≤ q.den := q.den_pos
  obtain ⟨ha1, ha2⟩ := nlog2_spec q.num.natAbs ha
  obtain ⟨hb1, hb2⟩ := nlog2_spec q.den hb
  have key : ∀ d : ℤ, d = (nlog2 q.num.natAbs : ℤ) - (nlog2 q.den : ℤ) →
      q < pow2 (d + 1) := by
    intro d hd
    rw [pow2_eq_zpow]
    have hqab : q = (q.num.natAbs : ℚ) / (q.den : ℚ) := by
      have hnum : (q.num : ℚ) = (q.num.natAbs : ℚ) := by
        rw [Int.cast_natAbs, abs_of_nonneg (le_of_lt (Rat.num_pos.mpr hq))]
      rw [← hnum, Rat.num_div_den]
    have step1 : (q.num.natAbs : ℚ) < (2 : ℚ) ^ ((nlog2 q.num.natAbs : ℤ) + 1) := by
      rw [show ((nlog2 q.num.natAbs : ℤ) + 1) = ((nlog2 q.num.natAbs + 1 : ℕ) : ℤ) by
        push_cast; ring, zpow_natCast]
      exact_mod_cast ha2
    have step2 : (2 : ℚ) ^ ((nlog2 q.num.natAbs : ℤ) + 1) =
        (2 : ℚ) ^ (d + 1) * (2 : ℚ) ^ ((nlog2 q.den : ℤ)) := by
      rw [← zpow_add₀ (two_ne_zero)]
      congr 1
      omega
    have step3 : (2 : ℚ) ^ ((nlog2 q.den : ℤ)) ≤ (q.den : ℚ) := by
      rw [zpow_natCast]
      exact_mod_cast hb1
    have main : (q.num.natAbs : ℚ) / (q.den : ℚ) < (2 : ℚ) ^ (d + 1) := by
      rw [div_lt_iff₀ (by exact_mod_cast q.den_pos)]
      calc (q.num.natAbs : ℚ) < (2 : ℚ) ^ ((nlog2 q.num.natAbs : ℤ) + 1) := step1
        _ = (2 : ℚ) ^ (d + 1) * (2 : ℚ) ^ ((nlog2 q.den : ℤ)) := step2
        _ ≤ (2 : ℚ) ^ (d + 1) * (q.den : ℚ) := by
            apply mul_le_mul_of_nonneg_left step3
            positivity
    rw [hqab]
    exact main
  unfold qlog2
  split
  · next h =>
      rw [sub_add_cancel]
      exact h
  · next h =>
      exact key _ rfl

theorem floorQ_le (q : ℚ) : (floorQ q : ℚ) ≤ q := by
  have hden : (0 : ℤ) < (q.den : ℤ) := by exact_mod_cast q.den_pos
  have hmod : 0 ≤ q.num % (q.den : ℤ) := Int.emod_nonneg q.num (by omega)
  have heq := Int.ediv_add_emod q.num (q.den : ℤ)
  have hle : (q.num / (q.den : ℤ)) * (q.den : ℤ) ≤ q.num := by
    have hcomm : (q.num / (q.den : ℤ)) * (q.den : ℤ)
        = (q.den : ℤ) * (q.num / (q.den : ℤ)) := by ring
    omega
  have h3 : (floorQ q : ℚ) ≤ (q.num : ℚ) / (q.den : ℚ) := by
    rw [le_div_iff₀ (by exact_mod_cast q.den_pos)]
    unfold floorQ
    exact_mod_cast hle
  rwa [Rat.num_div_den q] at h3

theorem lt_floorQ_add_one (q : ℚ) : q < (floorQ q : ℚ) + 1 := by
  have hden : (0 : ℤ) < (q.den : ℤ) := by exact_mod_cast q.den_pos
  have hmod : q.num % (q.den : ℤ) < (q.den : ℤ) := Int.emod_lt_of_pos q.num hden
  have heq := Int.ediv_add_emod q.num (q.den : ℤ)
  have hstep : q.num < (q.num / (q.den : ℤ) + 1) * (q.den : ℤ) := by
    have hexp : (q.num / (q.den : ℤ) + 1) * (q.den : ℤ)
        = (q.den : ℤ) * (q.num / (q.den : ℤ)) + (q.den : ℤ) := by ring
    omega
  have h3 : (q.num : ℚ) / (q.den : ℚ) < (floorQ q : ℚ) + 1 := by
    rw [div_lt_iff₀ (by exact_mod_cast q.den_pos)]
    unfold floorQ
    calc (q.num : ℚ) < (((q.num / (q.den : ℤ) + 1) * (q.den : ℤ) : ℤ) : ℚ) := by
          exact_mod_cast hstep
      _ = (((q.num / (q.den : ℤ) : ℤ) : ℚ) + 1) * (q.den : ℚ) := by push_cast; ring
  rwa [Rat.num_div_den q] at h3

theorem rne_le_of_lt_int (q : ℚ) (m : ℤ) (h : q < (m : ℚ)) : rne q ≤ m := by
  have h1 : (floorQ q : ℚ) ≤ q := floorQ_le q
  have h2 : floorQ q < m := by exact_mod_cast lt_of_le_of_lt h1 h
  unfold rne
  dsimp only
  split
  · omega
  · split
    · omega
    · split
      · omega
      · omega

theorem rne_nonneg (q : ℚ) (h : 0 ≤ q) : 0 ≤ rne q := by
  have h2 : (0 : ℚ) < (floorQ q : ℚ) + 1 := lt_of_le_of_lt h (lt_floorQ_add_one q)
  have h3 : (0 : ℤ) ≤ floorQ q := by
    by_contra hc
    push_neg at hc
    have : (floorQ q : ℚ) + 1 ≤ 0 := by exact_mod_cast (by omega : floorQ q + 1 ≤ 0)
    linarith
  unfold rne
  dsimp only
  split
  · omega
  · split
    · omega
    · split
      · omega
      · omega

theorem pow2_add (a b : ℤ) : pow2 (a + b) = pow2 a * pow2 b := by
  rw [pow2_eq_zpow, pow2_eq_zpow, pow2_eq_zpow, zpow_add₀ (two_ne_zero)]

theorem pow2_le_pow2 (a b : ℤ) (h : a ≤ b) : pow2 a ≤ pow2 b := by
  rw [pow2_eq_zpow, pow2_eq_zpow]
  exact zpow_le_zpow_right₀ one_le_two h

theorem f32RoundPos_repr (q : ℚ) (hq : 0 < q) :
    ∃ m : ℤ, 0 ≤ m ∧ m ≤ 2 ^ 24 ∧
      f32RoundPos q = (m : ℚ) * pow2 (max (qlog2 q - 23) (-149)) := by
  refine ⟨rne (q / pow2 (max (qlog2 q - 23) (-149))), ?_, ?_, rfl⟩
  · apply rne_nonneg
    have := pow2_pos (max (qlog2 q - 23) (-149))
    positivity
  · apply rne_le_of_lt_int
    have h1 : q < pow2 (qlog2 q + 1) := qlog2_lt q hq
    have h2 : pow2 (qlog2 q + 1) ≤ pow2 (max (qlog2 q - 23) (-149) + 24) := by
      apply pow2_le_pow2
      omega
    have h3 : pow2 (max (qlog2 q - 23) (-149) + 24)
        = pow2 (max (qlog2 q - 23) (-149)) * pow2 24 := pow2_add _ _
    have h4 : pow2 24 = ((2 ^ 24 : ℤ) : ℚ) := by decide
    rw [div_lt_iff₀ (pow2_pos _)]
    calc q < pow2 (qlog2 q + 1) := h1
      _ ≤ pow2 (max (qlog2 q - 23) (-149) + 24) := h2
      _ = pow2 (max (qlog2 q - 23) (-149)) * pow2 24 := h3
      _ = ((2 ^ 24 : ℤ) : ℚ) * pow2 (max (qlog2 q - 23) (-149)) := by
          rw [h4]; ring

theorem f32Round_repr (q : ℚ) :
    ∃ m u : ℤ, m.natAbs ≤ 2 ^ 24 ∧ f32Round q = (m : ℚ) * pow2 u := by
  unfold f32Round
  split
  · exact ⟨0, 0, by norm_num, by norm_num⟩
  · split
    · next h1 h2 =>
        obtain ⟨m, hm0, hm1, hmeq⟩ := f32RoundPos_repr (-q) (by linarith)
        refine ⟨-m, max (qlog2 (-q) - 23) (-149), by omega, ?_⟩
        rw [hmeq]
        push_cast
        ring
    · next h1 h2 =>
        have hq : 0 < q := lt_of_le_of_ne (not_lt.mp h2) (Ne.symm h1)
        obtain ⟨m, hm0, hm1, hmeq⟩ := f32RoundPos_repr q hq
        exact ⟨m, max (qlog2 q - 23) (-149), by omega, hmeq⟩

theorem repr_not_in_paused_window (m u : ℤ) (hm : m.natAbs ≤ 2 ^ 24) :
    ¬(((10 : ℚ) ^ 12) ≤ (m : ℚ) * pow2 u ∧ (m : ℚ) * pow2 u < 10 ^ 12 + 1) := by
  rintro ⟨hlo, hhi⟩
  by_cases hu : u ≤ 15
  · have hmq : (m : ℚ) ≤ (2 ^ 24 : ℚ) := by
      exact_mod_cast (by omega : m ≤ (2 ^ 24 : ℤ))
    have hp : pow2 u ≤ pow2 15 := pow2_le_pow2 _ _ hu
    have h1 : (m : ℚ) * pow2 u ≤ (2 ^ 24 : ℚ) * pow2 15 := by
      calc (m : ℚ) * pow2 u
          ≤ (2 ^ 24 : ℚ) * pow2 u := by
            apply mul_le_mul_of_nonneg_right hmq (le_of_lt (pow2_pos u))
        _ ≤ (2 ^ 24 : ℚ) * pow2 15 := by
            apply mul_le_mul_of_nonneg_left hp (by positivity)
    have h2 : pow2 15 = (32768 : ℚ) := by decide
    rw [h2] at h1
    have h3 : (2 ^ 24 : ℚ) * 32768 < 10 ^ 12 := by norm_num
    linarith
  · push_neg at hu
    have hu16 : 16 ≤ u := by omega
    have hue : u = ((u - 16).toNat : ℤ) + 16 := by omega
    have hp16 : pow2 16 = ((65536 : ℤ) : ℚ) := by decide
    have hpk : pow2 ((u - 16).toNat : ℤ) = ((2 ^ (u - 16).toNat : ℤ) : ℚ) := by
      rw [pow2_eq_zpow, zpow_natCast]
      push_cast
      ring
    have hN : (m : ℚ) * pow2 u = ((m * 2 ^ (u - 16).toNat * 65536 : ℤ) : ℚ) := by
      rw [hue, pow2_add, hp16, hpk]
      push_cast
      have he : ((u - 16).toNat : ℤ) + 16 - 16 = ((u - 16).toNat : ℤ) := by ring
      rw [he, Int.toNat_natCast]
      ring
    rw [hN] at hlo hhi
    have hlo2 : (10 ^ 12 : ℤ) ≤ m * 2 ^ (u - 16).toNat * 65536 := by exact_mod_cast hlo
    have hhi2 : m * 2 ^ (u - 16).toNat * 65536 < 10 ^ 12 + 1 := by exact_mod_cast hhi
    obtain ⟨t, ht⟩ : ∃ t : ℤ, m * 2 ^ (u - 16).toNat = t := ⟨_, rfl⟩
    rw [ht] at hlo2 hhi2
    omega

theorem floorQ_nonneg (q : ℚ) (h : 0 < q) : 0 ≤ floorQ q := by
  by_contra hc
  push_neg at hc
  have h1 : q < (floorQ q : ℚ) + 1 := lt_floorQ_add_one q
  have h2 : ((floorQ q : ℚ) + 1) ≤ 0 := by
    exact_mod_cast (by omega : floorQ q + 1 ≤ 0)
  linarith

/-- No float32 value truncates to exactly `10 ^ 12` nanoseconds: values of
that magnitude sit on a grid of 65536 nanoseconds that misses `10 ^ 12`.
Hence the rate-derived branch of `When` can never return the paused
delay. -/
theorem f32_trunc_ne_paused (x : ℚ) : truncQ (f32Round x) ≠ 10 ^ 12 := by
  intro heq
  obtain ⟨m, u, hm, hrepr⟩ := f32Round_repr x
  by_cases hy : 0 ≤ f32Round x
  · rw [truncQ, if_pos hy] at heq
    have hb1 : ((10 : ℚ) ^ 12) ≤ f32Round x := by
      have h := floorQ_le (f32Round x)
      rw [heq] at h
      calc ((10 : ℚ) ^ 12) = (((10 ^ 12 : ℤ)) : ℚ) := by norm_num
        _ ≤ f32Round x := h
    have hb2 : f32Round x < 10 ^ 12 + 1 := by
      have h := lt_floorQ_add_one (f32Round x)
      rw [heq] at h
      calc f32Round x < ((10 ^ 12 : ℤ) : ℚ) + 1 := h
        _ = 10 ^ 12 + 1 := by norm_num
    rw [hrepr] at hb1 hb2
    exact repr_not_in_paused_window m u hm ⟨hb1, hb2⟩
  · push_neg at hy
    rw [truncQ, if_neg (not_le.mpr hy)] at heq
    have h2 : 0 ≤ floorQ (-f32Round x) := floorQ_nonneg _ (by linarith)
    omega

/-- C1 counterexample: with default options and a nil cluster lister, the
graceful-eviction package's `When` returns 10 seconds (the delay derived
from the secondary rate 0.1), not the paused delay of 1000 seconds, so
the claim fails for that implementation. -/
theorem c1_counterexample :
    GracefulEviction.When
      (GracefulEviction.NewDynamicRateLimiter none defaultGracefulEvictionOptions)
      (0 : ℕ) = 10 ^ 10
    ∧ (10 ^ 10 : ℤ) ≠ 1000 * 10 ^ 9 := by
  constructor
  · decide
  · decide

/-- C1 amended: for every key and options, the cluster package's `When`
returns the paused delay of 1000 seconds whenever the lister is nil or
the list fails (never a shorter rate-derived delay); the graceful-eviction
package's `getCurrentRate` instead falls back to the secondary rate in
those failure cases. -/
theorem c1_failure_paused {α : Type} (item : α) (o : EvictionQueueOptions)
    (o2 : GracefulEvictionOptions) (e e2 : String) :
    ClusterPkg.When (ClusterPkg.NewDynamicRateLimiter none o) item = 1000 * 10 ^ 9
    ∧ ClusterPkg.When
        (ClusterPkg.NewDynamicRateLimiter (some (Except.error e)) o) item
        = 1000 * 10 ^ 9
    ∧ GracefulEviction.getCurrentRate
        (GracefulEviction.NewDynamicRateLimiter none o2)
        = o2.SecondaryResourceEvictionRate
    ∧ GracefulEviction.getCurrentRate
        (GracefulEviction.NewDynamicRateLimiter (some (Except.error e2)) o2)
        = o2.SecondaryResourceEvictionRate := by
  refine ⟨?_, ?_, rfl, rfl⟩
  · simp [ClusterPkg.When, ClusterPkg.getCurrentRate, ClusterPkg.getCurrentRateM,
      ClusterPkg.NewDynamicRateLimiter, ClusterPkg.maxEvictionDelay]
  · simp [ClusterPkg.When, ClusterPkg.getCurrentRate, ClusterPkg.getCurrentRateM,
      ClusterPkg.NewDynamicRateLimiter, ClusterPkg.maxEvictionDelay]

/-- C7: `Forget` leaves the limiter unchanged (its body is empty) and
`NumRequeues` returns 0, in both packages; the limiter structs hold no
per-key state at all. -/
theorem c7_forget_numrequeues {α : Type} (d : ClusterPkg.DynamicRateLimiter)
    (d2 : GracefulEviction.DynamicRateLimiter) (item : α) :
    ClusterPkg.Forget d item = d
    ∧ ClusterPkg.NumRequeues d item = 0
    ∧ GracefulEviction.Forget d2 item = d2
    ∧ GracefulEviction.NumRequeues d2 item = 0 :=
  ⟨rfl, rfl, rfl, rfl⟩

/-- C10: `Add` and `AddAfter` called with a nil item return immediately:
they make no queue call and no metric update, so the queue state and all
metrics are unchanged. -/
theorem c10_nil_item_dropped {α Obj : Type} (w : EvictionWorkerPkg.evictionWorker α Obj)
    (n : ℕ) (dur : ℤ) :
    EvictionWorkerPkg.Add w none n = []
    ∧ EvictionWorkerPkg.AddAfter w none dur n = [] :=
  ⟨rfl, rfl⟩

/-- C3: `When` returns the paused delay of 1000 seconds exactly when the
computed rate is 0 — for a nonzero rate the float32 value
`1 / rate * float32(time.Second)` can never truncate to exactly 10^12
nanoseconds — and otherwise it returns `1 second / rate` computed in
float32; with the default rates this is exactly 2 seconds at rate 0.5
and exactly 10 seconds at rate 0.1. -/
theorem c3_when_paused_iff {α : Type} (d : ClusterPkg.DynamicRateLimiter) (item : α) :
    (ClusterPkg.When d item = 1000 * 10 ^ 9 ↔ ClusterPkg.getCurrentRate d = 0)
    ∧ (ClusterPkg.getCurrentRate d ≠ 0 →
        ClusterPkg.When d item
          = truncQ (f32Mul (f32Div 1 (ClusterPkg.getCurrentRate d)) (f32Round (10 ^ 9))))
    ∧ truncQ (f32Mul (f32Div 1 (f32Round (1 / 2))) (f32Round (10 ^ 9))) = 2 * 10 ^ 9
    ∧ truncQ (f32Mul (f32Div 1 (f32Round (1 / 10))) (f32Round (10 ^ 9))) = 10 * 10 ^ 9 := by
  have hbody : ∀ h : ¬ ClusterPkg.getCurrentRate d = 0,
      ClusterPkg.When d item
        = truncQ (f32Mul (f32Div 1 (ClusterPkg.getCurrentRate d)) (f32Round (10 ^ 9))) := by
    intro h
    simp only [ClusterPkg.When]
    rw [if_neg h]
  refine ⟨⟨?_, ?_⟩, hbody, by decide, by decide⟩
  · intro h
    by_contra hr
    have hne := f32_trunc_ne_paused
      (f32Div 1 (ClusterPkg.getCurrentRate d) * f32Round (10 ^ 9))
    rw [hbody hr] at h
    apply hne
    calc truncQ (f32Round (f32Div 1 (ClusterPkg.getCurrentRate d) * f32Round (10 ^ 9)))
        = truncQ (f32Mul (f32Div 1 (ClusterPkg.getCurrentRate d)) (f32Round (10 ^ 9))) := rfl
      _ = 1000 * 10 ^ 9 := h
      _ = 10 ^ 12 := by norm_num
  · intro h
    simp only [ClusterPkg.When]
    rw [if_pos h]
    rfl

/-- C3 witness: the healthy four-cluster fixture has the nonzero default
rate 0.5, and `When` there returns the rate-derived 2-second delay. -/
theorem c3_when_paused_iff_witness :
    ClusterPkg.getCurrentRate dHealthy ≠ 0
    ∧ ClusterPkg.When dHealthy (0 : ℕ)
        = truncQ (f32Mul (f32Div 1 (ClusterPkg.getCurrentRate dHealthy)) (f32Round (10 ^ 9))) :=
  ⟨by decide, (c3_when_paused_iff dHealthy (0 : ℕ)).2.1 (by decide)⟩

/-- C2: for a successfully listed snapshot the selected rate follows the
cascade — a zero total gives the healthy rate; a float32 failure ratio
not above the threshold gives the healthy rate; otherwise a total above
the large-cluster threshold gives the secondary rate, else 0 — and with
default options, 100 clusters of which 55 are NotReady, the ratio equals
the threshold (not above it) and `When` returns 2 seconds. -/
theorem c2_rate_cascade (o : EvictionQueueOptions) (l : List ListedObject) :
    (l.length = 0 →
      ClusterPkg.getCurrentRate (ClusterPkg.NewDynamicRateLimiter (some (Except.ok l)) o)
        = o.ResourceEvictionRate)
    ∧ (l.length ≠ 0 →
        ¬ f32Div (f32OfNat (countUnhealthy l)) (f32OfNat l.length)
            > o.UnhealthyClusterThreshold →
        ClusterPkg.getCurrentRate (ClusterPkg.NewDynamicRateLimiter (some (Except.ok l)) o)
          = o.ResourceEvictionRate)
    ∧ (l.length ≠ 0 →
        f32Div (f32OfNat (countUnhealthy l)) (f32OfNat l.length)
          > o.UnhealthyClusterThreshold →
        (l.length : ℤ) > o.LargeClusterNumThreshold →
        ClusterPkg.getCurrentRate (ClusterPkg.NewDynamicRateLimiter (some (Except.ok l)) o)
          = o.SecondaryResourceEvictionRate)
    ∧ (l.length ≠ 0 →
        f32Div (f32OfNat (countUnhealthy l)) (f32OfNat l.length)
          > o.UnhealthyClusterThreshold →
        ¬ (l.length : ℤ) > o.LargeClusterNumThreshold →
        ClusterPkg.getCurrentRate (ClusterPkg.NewDynamicRateLimiter (some (Except.ok l)) o)
          = 0)
    ∧ ClusterPkg.When
        (ClusterPkg.NewDynamicRateLimiter
          (some (Except.ok
            (List.replicate 55 notReadyCluster ++ List.replicate 45 readyCluster)))
          defaultEvictionQueueOptions)
        (0 : ℕ) = 2 * 10 ^ 9 := by
  refine ⟨?_, ?_, ?_, ?_, ?_⟩
  · intro h
    simp [ClusterPkg.getCurrentRate, ClusterPkg.getCurrentRateM,
      ClusterPkg.NewDynamicRateLimiter, h]
  · intro h hr
    simp [ClusterPkg.getCurrentRate, ClusterPkg.getCurrentRateM,
      ClusterPkg.NewDynamicRateLimiter, h, hr]
  · intro h hr hl
    simp [ClusterPkg.getCurrentRate, ClusterPkg.getCurrentRateM,
      ClusterPkg.NewDynamicRateLimiter, h, hr, hl]
  · intro h hr hl
    simp [ClusterPkg.getCurrentRate, ClusterPkg.getCurrentRateM,
      ClusterPkg.NewDynamicRateLimiter, h, hr, hl]
  · decide

/-- C2 witness: the healthy four-cluster fixture exercises the
not-above-threshold branch, yielding the default healthy rate. -/
theorem c2_rate_cascade_witness :
    ClusterPkg.getCurrentRate dHealthy
      = defaultEvictionQueueOptions.ResourceEvictionRate :=
  (c2_rate_cascade defaultEvictionQueueOptions
    [readyCluster, readyCluster, readyCluster, readyCluster]).2.1
    (by decide) (by decide)

/-- C5 counterexample: the graceful-eviction `When` successfully lists a
non-empty snapshot (one NotReady cluster) yet publishes no health gauge
at all, so the claim fails for that implementation. -/
theorem c5_counterexample :
    ¬ HealthMetric.mk 1 (f32Div (f32OfNat 1) (f32OfNat 1))
        ∈ (GracefulEviction.WhenM
            (GracefulEviction.NewDynamicRateLimiter (some (Except.ok [notReadyCluster]))
              defaultGracefulEvictionOptions) (0 : ℕ)).2 := by
  decide

/-- C5 amended: every call of the cluster package's `When` that lists a
non-empty snapshot publishes exactly one health-metric pair, with
`cluster_fault_num` the NotReady count and `cluster_failure_rate` the
float32 quotient unhealthy/total, whatever rate branch is then taken;
the graceful-eviction package's `When` publishes nothing. -/
theorem c5_health_gauges {α : Type} (o : EvictionQueueOptions)
    (o2 : GracefulEvictionOptions) (l : List ListedObject) (item : α)
    (h : l.length ≠ 0) :
    (ClusterPkg.WhenM (ClusterPkg.NewDynamicRateLimiter (some (Except.ok l)) o) item).2
      = [HealthMetric.mk (countUnhealthy l)
          (f32Div (f32OfNat (countUnhealthy l)) (f32OfNat l.length))]
    ∧ (GracefulEviction.WhenM
        (GracefulEviction.NewDynamicRateLimiter (some (Except.ok l)) o2) item).2
      = [] := by
  refine ⟨?_, rfl⟩
  simp only [ClusterPkg.WhenM, ClusterPkg.getCurrentRateM,
    ClusterPkg.NewDynamicRateLimiter]
  rw [if_neg h]
  split
  · rfl
  · split
    · rfl
    · rfl

/-- C5 witness: one NotReady cluster with default options publishes fault
count 1 and failure rate 1. -/
theorem c5_health_gauges_witness :
    (ClusterPkg.WhenM
        (ClusterPkg.NewDynamicRateLimiter (some (Except.ok [notReadyCluster]))
          defaultEvictionQueueOptions) (0 : ℕ)).2
      = [HealthMetric.mk (countUnhealthy [notReadyCluster])
          (f32Div (f32OfNat (countUnhealthy [notReadyCluster]))
            (f32OfNat [notReadyCluster].length))] :=
  (c5_health_gauges defaultEvictionQueueOptions defaultGracefulEvictionOptions
    [notReadyCluster] (0 : ℕ) (by decide)).1

/-- C6: `Enqueue` drops the object when key derivation errors or yields a
nil key — no queue call, no metric update — and otherwise adds the
derived key via `Add`, which records the queue-depth gauge and, when a
resource-kind function is configured, the per-kind added metric. -/
theorem c6_enqueue_drops_or_adds {α Obj : Type}
    (w : EvictionWorkerPkg.evictionWorker α Obj) (obj : Obj) (n : ℕ) :
    (∀ e : String, w.keyFunc obj = Except.error e →
      EvictionWorkerPkg.Enqueue w obj n = [])
    ∧ (w.keyFunc obj = Except.ok none →
        EvictionWorkerPkg.Enqueue w obj n = [])
    ∧ (∀ k : α, w.keyFunc obj = Except.ok (some k) →
        EvictionWorkerPkg.Enqueue w obj n = EvictionWorkerPkg.Add w (some k) n
        ∧ EvictionWorkerPkg.WorkerEvent.queueAdd k
            ∈ EvictionWorkerPkg.Enqueue w obj n
        ∧ EvictionWorkerPkg.WorkerEvent.recordEvictionQueueMetrics w.name n
            ∈ EvictionWorkerPkg.Enqueue w obj n
        ∧ ∀ f, w.resourceKindFunc = some f →
            EvictionWorkerPkg.WorkerEvent.recordEvictionKindMetrics (f k).1 (f k).2 true
              ∈ EvictionWorkerPkg.Enqueue w obj n) := by
  refine ⟨?_, ?_, ?_⟩
  · intro e he
    simp [EvictionWorkerPkg.Enqueue, he]
  · intro he
    simp [EvictionWorkerPkg.Enqueue, he]
  · intro k hk
    refine ⟨by simp [EvictionWorkerPkg.Enqueue, hk], ?_, ?_, ?_⟩
    · simp [EvictionWorkerPkg.Enqueue, hk, EvictionWorkerPkg.Add]
    · simp [EvictionWorkerPkg.Enqueue, hk, EvictionWorkerPkg.Add]
    · intro f hf
      simp [EvictionWorkerPkg.Enqueue, hk, EvictionWorkerPkg.Add, hf]

/-- C6 witness: a failing key function and a nil key both drop; a derived
key is added to the queue. -/
theorem c6_enqueue_drops_or_adds_witness :
    EvictionWorkerPkg.Enqueue wKeyErr 7 0 = []
    ∧ EvictionWorkerPkg.Enqueue wKeyNil 7 0 = []
    ∧ EvictionWorkerPkg.WorkerEvent.queueAdd 7 ∈ EvictionWorkerPkg.Enqueue wOk 7 2 :=
  ⟨(c6_enqueue_drops_or_adds wKeyErr 7 0).1 "bad object" rfl,
   (c6_enqueue_drops_or_adds wKeyNil 7 0).2.1 rfl,
   ((c6_enqueue_drops_or_adds wOk 7 2).2.2 7 rfl).2.1⟩

/-- C9: with equal options and the same successfully listed snapshot, the
cluster package's `When` and the graceful-eviction package's `When`
return equal delays: the two implementations compute the same rate on
the success path. -/
theorem c9_when_agree {α : Type} (o : EvictionQueueOptions)
    (o2 : GracefulEvictionOptions) (l : List ListedObject) (item : α)
    (h1 : o.ResourceEvictionRate = o2.ResourceEvictionRate)
    (h2 : o.SecondaryResourceEvictionRate = o2.SecondaryResourceEvictionRate)
    (h3 : o.UnhealthyClusterThreshold = o2.UnhealthyClusterThreshold)
    (h4 : o.LargeClusterNumThreshold = o2.LargeClusterNumThreshold) :
    ClusterPkg.When (ClusterPkg.NewDynamicRateLimiter (some (Except.ok l)) o) item
      = GracefulEviction.When
          (GracefulEviction.NewDynamicRateLimiter (some (Except.ok l)) o2) item := by
  have hrate :
      ClusterPkg.getCurrentRate (ClusterPkg.NewDynamicRateLimiter (some (Except.ok l)) o)
        = GracefulEviction.getCurrentRate
            (GracefulEviction.NewDynamicRateLimiter (some (Except.ok l)) o2) := by
    by_cases hz : l.length = 0
    · simp [ClusterPkg.getCurrentRate, ClusterPkg.getCurrentRateM,
        ClusterPkg.NewDynamicRateLimiter, GracefulEviction.getCurrentRate,
        GracefulEviction.NewDynamicRateLimiter, hz, h1]
    · by_cases hr : f32Div (f32OfNat (countUnhealthy l)) (f32OfNat l.length)
          > o.UnhealthyClusterThreshold
      · by_cases hl : (l.length : ℤ) > o.LargeClusterNumThreshold
        · simp [ClusterPkg.getCurrentRate, ClusterPkg.getCurrentRateM,
            ClusterPkg.NewDynamicRateLimiter, GracefulEviction.getCurrentRate,
            GracefulEviction.NewDynamicRateLimiter, hz, h2, h3 ▸ hr, h4 ▸ hl, hr, hl]
        · simp [ClusterPkg.getCurrentRate, ClusterPkg.getCurrentRateM,
            ClusterPkg.NewDynamicRateLimiter, GracefulEviction.getCurrentRate,
            GracefulEviction.NewDynamicRateLimiter, hz, h3 ▸ hr, h4 ▸ hl, hr, hl]
      · simp [ClusterPkg.getCurrentRate, ClusterPkg.getCurrentRateM,
          ClusterPkg.NewDynamicRateLimiter, GracefulEviction.getCurrentRate,
          GracefulEviction.NewDynamicRateLimiter, hz, h1, h3 ▸ hr, hr]
  by_cases hzero :
      GracefulEviction.getCurrentRate
        (GracefulEviction.NewDynamicRateLimiter (some (Except.ok l)) o2) = 0
  · simp [ClusterPkg.When, GracefulEviction.When, hrate, hzero,
      ClusterPkg.maxEvictionDelay]
  · simp [ClusterPkg.When, GracefulEviction.When, hrate, hzero]

/-- C9 witness: default options on both sides over a single healthy
cluster give equal delays. -/
theorem c9_when_agree_witness :
    ClusterPkg.When
      (ClusterPkg.NewDynamicRateLimiter (some (Except.ok [readyCluster]))
        defaultEvictionQueueOptions) (0 : ℕ)
      = GracefulEviction.When
          (GracefulEviction.NewDynamicRateLimiter (some (Except.ok [readyCluster]))
            defaultGracefulEvictionOptions) (0 : ℕ) :=
  c9_when_agree defaultEvictionQueueOptions defaultGracefulEvictionOptions
    [readyCluster] (0 : ℕ) rfl rfl rfl rfl

/-- C8: a malformed record contributes nothing to the unhealthy count,
and the rate computation proceeds over the remaining records without
error: the snapshot with the malformed record yields exactly the rate of
the same snapshot with the malformed record replaced by a healthy,
well-formed one (the record still counts toward the total). -/
theorem c8_malformed_ignored (o : EvictionQueueOptions)
    (l1 l2 : List ListedObject) :
    countUnhealthy (l1 ++ ListedObject.malformed :: l2) = countUnhealthy (l1 ++ l2)
    ∧ ClusterPkg.getCurrentRate
        (ClusterPkg.NewDynamicRateLimiter
          (some (Except.ok (l1 ++ ListedObject.malformed :: l2))) o)
      = ClusterPkg.getCurrentRate
          (ClusterPkg.NewDynamicRateLimiter
            (some (Except.ok (l1 ++ readyCluster :: l2))) o) := by
  have hcount : countUnhealthy (l1 ++ ListedObject.malformed :: l2)
      = countUnhealthy (l1 ++ l2) := by
    simp [countUnhealthy, List.countP_append, List.countP_cons]
  have hcount2 : countUnhealthy (l1 ++ ListedObject.malformed :: l2)
      = countUnhealthy (l1 ++ readyCluster :: l2) := by
    simp [countUnhealthy, readyCluster, List.countP_append, List.countP_cons,
      IsClusterReady]
  have hlen : (l1 ++ ListedObject.malformed :: l2).length
      = (l1 ++ readyCluster :: l2).length := by
    simp
  refine ⟨hcount, ?_⟩
  simp only [ClusterPkg.getCurrentRate, ClusterPkg.getCurrentRateM,
    ClusterPkg.NewDynamicRateLimiter]
  rw [hlen, hcount2]

/-- C4: per processed key, the outcome counter is incremented exactly
once; on a reconcile error the key is requeued via `queue.AddRateLimited`,
the per-kind gauge is not decremented, `queue.Done` runs (deferred) and
the loop continues; on success `queue.Forget` runs, the per-kind gauge is
decremented exactly once, and `queue.Done` runs; hence a key that fails
once and then succeeds sees exactly one per-kind decrement in total. -/
theorem c4_process_work_item {α Obj : Type}
    (w w2 : EvictionWorkerPkg.evictionWorker α Obj) (key : α) (n n2 : ℕ) :
    (EvictionWorkerPkg.processNextWorkItem w (some key) n).2.countP
        EvictionWorkerPkg.isOutcomeEvent = 1
    ∧ (∀ e : String, w.reconcileFunc key = some e →
        (EvictionWorkerPkg.processNextWorkItem w (some key) n).1 = true
        ∧ EvictionWorkerPkg.WorkerEvent.queueAddRateLimited key
            ∈ (EvictionWorkerPkg.processNextWorkItem w (some key) n).2
        ∧ (EvictionWorkerPkg.processNextWorkItem w (some key) n).2.countP
            EvictionWorkerPkg.isKindDecrement = 0
        ∧ EvictionWorkerPkg.WorkerEvent.queueDone key
            ∈ (EvictionWorkerPkg.processNextWorkItem w (some key) n).2)
    ∧ (w.reconcileFunc key = none →
        (EvictionWorkerPkg.processNextWorkItem w (some key) n).1 = true
        ∧ EvictionWorkerPkg.WorkerEvent.queueForget key
            ∈ (EvictionWorkerPkg.processNextWorkItem w (some key) n).2
        ∧ (EvictionWorkerPkg.processNextWorkItem w (some key) n).2.countP
            EvictionWorkerPkg.isKindDecrement = 1
        ∧ EvictionWorkerPkg.WorkerEvent.queueDone key
            ∈ (EvictionWorkerPkg.processNextWorkItem w (some key) n).2)
    ∧ (∀ e : String, w.reconcileFunc key = some e → w2.reconcileFunc key = none →
        ((EvictionWorkerPkg.processNextWorkItem w (some key) n).2
          ++ (EvictionWorkerPkg.processNextWorkItem w2 (some key) n2).2).countP
            EvictionWorkerPkg.isKindDecrement = 1) := by
  refine ⟨?_, ?_, ?_, ?_⟩
  · cases hw : w.reconcileFunc key <;>
      simp [EvictionWorkerPkg.processNextWorkItem, hw,
        EvictionWorkerPkg.isOutcomeEvent, List.countP_cons]
  · intro e he
    refine ⟨?_, ?_, ?_, ?_⟩ <;>
      simp [EvictionWorkerPkg.processNextWorkItem, he,
        EvictionWorkerPkg.isKindDecrement, List.countP_cons]
  · intro he
    refine ⟨?_, ?_, ?_, ?_⟩ <;>
      simp [EvictionWorkerPkg.processNextWorkItem, he,
        EvictionWorkerPkg.isKindDecrement, List.countP_cons]
  · intro e he he2
    rw [List.countP_append]
    have hc1 : (EvictionWorkerPkg.processNextWorkItem w (some key) n).2.countP
        EvictionWorkerPkg.isKindDecrement = 0 := by
      simp [EvictionWorkerPkg.processNextWorkItem, he,
        EvictionWorkerPkg.isKindDecrement, List.countP_cons]
    have hc2 : (EvictionWorkerPkg.processNextWorkItem w2 (some key) n2).2.countP
        EvictionWorkerPkg.isKindDecrement = 1 := by
      simp [EvictionWorkerPkg.processNextWorkItem, he2,
        EvictionWorkerPkg.isKindDecrement, List.countP_cons]
    omega

/-- C4 witness: the failing worker requeues and keeps the gauge; the
succeeding worker decrements once; across fail-then-succeed the gauge is
decremented exactly once. -/
theorem c4_process_work_item_witness :
    (EvictionWorkerPkg.processNextWorkItem wErr (some 1) 0).2.countP
        EvictionWorkerPkg.isOutcomeEvent = 1
    ∧ EvictionWorkerPkg.WorkerEvent.queueAddRateLimited 1
        ∈ (EvictionWorkerPkg.processNextWorkItem wErr (some 1) 0).2
    ∧ ((EvictionWorkerPkg.processNextWorkItem wErr (some 1) 0).2
        ++ (EvictionWorkerPkg.processNextWorkItem wOk (some 1) 0).2).countP
          EvictionWorkerPkg.isKindDecrement = 1 :=
  ⟨(c4_process_work_item wErr wOk 1 0 0).1,
   ((c4_process_work_item wErr wOk 1 0 0).2.1 "reconcile failed" rfl).2.1,
   (c4_process_work_item wErr wOk 1 0 0).2.2.2 "reconcile failed" rfl rfl⟩
